import Mathlib

/-!
Shallow embedding of the SCI kernel operations in
`engines/sci/engine/kscripts.cpp` (ScummVM): resource locking (`kLock`),
object cloning and disposal (`kClone`, `kDisposeClone`), script lifecycle
(`kScriptID`, `kDisposeScript`) and the object query `kIsObject`.

The kernel functions themselves are translated line by line from the
source file.  The collaborators they call (`SegManager`, the resource
manager, `Object` accessors, the execution stack accessor) live outside
the provided sources; those are modelled from the specification and each
such definition carries a doc comment starting with `Modelled from the
spec:`.
-/

set_option autoImplicit false

namespace Sci

/-- Association list lookup: the first entry with the given key wins. -/
def findVal {K V : Type} [DecidableEq K] (k : K) : List (K × V) → Option V
  | [] => none
  | (k1, v) :: t => if k = k1 then some v else findVal k t

/-- Association list update by shadowing: prepend the new binding. -/
def setVal {K V : Type} [DecidableEq K] (k : K) (v : V) (l : List (K × V)) :
    List (K × V) :=
  (k, v) :: l

/-- A VM register value: a segment id together with an offset, exactly the
`reg_t` pair of the source. -/
structure reg_t where
  segment : Nat
  offset : Nat
deriving DecidableEq, Repr

/-- The low 16 bits of the offset, as `reg_t::toUint16` reads them. -/
def reg_t.toUint16 (r : reg_t) : Nat := r.offset % 65536

/-- Build a register from a 16-bit segment and offset (`make_reg`). -/
def make_reg (seg off : Nat) : reg_t := ⟨seg % 65536, off % 65536⟩

/-- Build a register with a wide offset (`make_reg32`). -/
def make_reg32 (seg off : Nat) : reg_t := ⟨seg, off⟩

/-- The null register value `NULL_REG`. -/
def NULL_REG : reg_t := ⟨0, 0⟩

/-- Modelled from the spec: the reserved signal-sentinel offset that
`kIsObject` treats specially (`SIGNAL_OFFSET` in the VM headers, which are
not part of the provided sources). -/
def SIGNAL_OFFSET : Nat := 65535

/-- Modelled from the spec: the info-selector flag bit marking a clone.
The spec reads the lowest two info bits as the pair (Clone, Class). -/
def kInfoFlagClone : Nat := 1

/-- Modelled from the spec: the info-selector flag bit marking a class.
The spec reads the lowest two info bits as the pair (Clone, Class). -/
def kInfoFlagClass : Nat := 2

/-- Modelled from the spec: resource types distinguished by the kernel
operations of this file.  `other` covers every remaining type. -/
inductive ResourceType where
  | sound
  | audio
  | audio36
  | sync36
  | memory
  | invalid
  | other (n : Nat)
deriving DecidableEq, Repr

/-- Modelled from the spec: a resource cache key, `(type, number)`.  The
four dialogue sub-keys are folded into the number for the operations used
here, which only ever build two-component ids. -/
structure ResourceId where
  ty : ResourceType
  number : Nat
deriving DecidableEq, Repr

/-- Modelled from the spec: a cached resource carries a lock count, a
non-negative nesting counter. -/
structure Resource where
  lockers : Nat
deriving DecidableEq, Repr

/-- Modelled from the spec: the resource manager, a cache of loaded
resources over a backing store of existing resource ids. -/
structure ResMan where
  cache : List (ResourceId × Resource)
  store : List ResourceId
deriving DecidableEq, Repr

/-- The lock count the cache records for an id; zero when absent. -/
def lockCount (rm : ResMan) (id : ResourceId) : Nat :=
  ((findVal id rm.cache).map Resource.lockers).getD 0

/-- Modelled from the spec: `findResource` looks a resource up, loading it
into the cache from the backing store when absent; when the lock flag is
set the find also increments the lock count.  Returns the updated manager
and the found resource, `none` when the id exists nowhere. -/
def findResource (rm : ResMan) (id : ResourceId) (lock : Bool) :
    ResMan × Option Resource :=
  match findVal id rm.cache with
  | some res =>
    if lock then
      let res1 : Resource := ⟨res.lockers + 1⟩
      ({ rm with cache := setVal id res1 rm.cache }, some res1)
    else
      (rm, some res)
  | none =>
    if id ∈ rm.store then
      let res1 : Resource := ⟨if lock then 1 else 0⟩
      ({ rm with cache := setVal id res1 rm.cache }, some res1)
    else
      (rm, none)

/-- Modelled from the spec: `unlockResource` decrements the lock count of
a cached resource; unlocking a count already at zero is a no-op, never an
underflow (invariant I3). -/
def unlockResource (rm : ResMan) (id : ResourceId) : ResMan :=
  match findVal id rm.cache with
  | none => rm
  | some res =>
    if res.lockers = 0 then rm
    else { rm with cache := setVal id ⟨res.lockers - 1⟩ rm.cache }

/-- Modelled from the spec: the legacy sentinel sweep, unlocking once every
currently locked resource of the given type. -/
def unlockAllOfType (rm : ResMan) (t : ResourceType) : ResMan :=
  { rm with
    cache := rm.cache.map fun p =>
      (p.1, if p.1.ty = t ∧ 0 < p.2.lockers then ⟨p.2.lockers - 1⟩ else p.2) }

/-- The single-resource unlock path of `kLock` (`kscripts.cpp` lines
121-133): find without locking, then unlock when found; a miss only logs
a diagnostic. -/
def unlockStep (rm : ResMan) (id : ResourceId) : ResMan :=
  let found := findResource rm id false
  match found.2 with
  | some _ => unlockResource found.1 id
  | none => found.1

/-- Modelled from the spec: a heap object (class template or clone).  Its
own address is the key it is stored under, so the `getPos` accessor of the
source is the lookup key; the info, species and superclass selectors and
the opaque variable block are the copied field block; the Freed mark is
kept beside them as the disposal flag. -/
structure Object where
  infoSelector : reg_t
  species : reg_t
  superClass : reg_t
  vars : List reg_t
  freed : Bool
deriving DecidableEq, Repr

/-- The `isClass` test of the source: the Class info bit is set. -/
def Object.isClass (o : Object) : Bool :=
  o.infoSelector.toUint16 &&& kInfoFlagClass != 0

/-- Modelled from the spec: a loaded script segment record — locker count,
dispatch (exports) table, deleted mark and heap offset. -/
structure Script where
  lockers : Nat
  exports : List Nat
  markedAsDeleted : Bool
  heapOffset : Nat
deriving DecidableEq, Repr

/-- Modelled from the spec: the segment manager.  Objects (classes and
clones) are addressed by `reg_t`; script segments carry `Script` records;
`loadable` is the backing set of scripts that can still be instantiated;
`clonesSegId` and `nextCloneOffset` drive clone-table allocation and
`nextSegId` drives fresh script-segment ids. -/
structure SegManager where
  objects : List (reg_t × Object)
  scripts : List (Nat × Script)
  scriptSegMap : List (Nat × Nat)
  loadable : List (Nat × Script)
  clonesSegId : Nat
  nextCloneOffset : Nat
  nextSegId : Nat
deriving DecidableEq, Repr

/-- Modelled from the spec: resolve an address to the object stored there
(freed clones still resolve until their slot is reclaimed). -/
def getObject (sm : SegManager) (addr : reg_t) : Option Object :=
  findVal addr sm.objects

/-- Modelled from the spec: true iff the address resolves to a live,
non-freed object header. -/
def isHeapObject (sm : SegManager) (addr : reg_t) : Bool :=
  match getObject sm addr with
  | some o => !o.freed
  | none => false

/-- The script record of a segment, when that segment is a loaded script. -/
def getScript (sm : SegManager) (seg : Nat) : Option Script :=
  findVal seg sm.scripts

/-- The locker count of a segment; zero when it has no script record. -/
def lockersOf (sm : SegManager) (seg : Nat) : Nat :=
  ((findVal seg sm.scripts).map Script.lockers).getD 0

/-- The address the next clone allocation will use. -/
def cloneAddrOf (sm : SegManager) : reg_t :=
  ⟨sm.clonesSegId, sm.nextCloneOffset⟩

/-- The empty object a fresh clone-table slot starts out as. -/
def emptyObj : Object := ⟨NULL_REG, NULL_REG, NULL_REG, [], false⟩

/-- Modelled from the spec: allocate a new slot in the clone table and
return its address; the slot starts as an empty object and the allocation
may invalidate previously obtained views, which the source re-resolves by
address afterwards. -/
def allocateClone (sm : SegManager) : SegManager × reg_t :=
  let addr := cloneAddrOf sm
  ({ sm with
      nextCloneOffset := sm.nextCloneOffset + 1,
      objects := setVal addr emptyObj sm.objects },
   addr)

/-- The object `kClone` writes into the fresh slot at address `A` when
cloning the parent object `p` living at address `C`: the copied field
block with the Class bit cleared and the Clone bit set, the species
pointing at the new slot itself, and the superclass redirected to the
parent exactly when the parent is a class. -/
def cloneResult (A C : reg_t) (p : Object) : Object :=
  { infoSelector :=
      make_reg 0 ((p.infoSelector.toUint16 &&& (65535 ^^^ kInfoFlagClass)) ||| kInfoFlagClone),
    species := A,
    superClass := if p.isClass then C else p.superClass,
    vars := p.vars,
    freed := false }

/-- Store an object at an address (the selector setters of the source all
write through to the stored object). -/
def setObject (sm : SegManager) (addr : reg_t) (o : Object) : SegManager :=
  { sm with objects := setVal addr o sm.objects }

/-- Engine-fatal failures raised by the kernel operations. -/
inductive EngineError where
  | cloneNonObject (addr : reg_t)
  | disposeNonObject (addr : reg_t)
  | notAScriptSegment (seg : Nat)
  | noDispatchEntry (script index : Nat)
  | exportOutOfRange (index : Nat)
deriving DecidableEq, Repr

instance {ε α : Type} [DecidableEq ε] [DecidableEq α] : DecidableEq (Except ε α) :=
  fun x y =>
    match x, y with
    | .error a, .error b =>
      if h : a = b then isTrue (by rw [h]) else isFalse (by simp [h])
    | .error _, .ok _ => isFalse (by simp)
    | .ok _, .error _ => isFalse (by simp)
    | .ok a, .ok b =>
      if h : a = b then isTrue (by rw [h]) else isFalse (by simp [h])

/-- `Script::incrementLockers` reached through `SegManager::getScript`,
which is fatal on a segment without a script record. -/
def incrementLockersE (sm : SegManager) (seg : Nat) :
    Except EngineError SegManager :=
  match getScript sm seg with
  | none => .error (.notAScriptSegment seg)
  | some scr =>
    .ok { sm with scripts := setVal seg { scr with lockers := scr.lockers + 1 } sm.scripts }

/-- Modelled from the spec: engine configuration consulted by the kernel
operations — version, feature flags, game identity and the resource-type
conversion maps. -/
structure GameConfig where
  sciVersion : Nat
  hasSci3Audio : Bool
  gameId : Nat
  platform : Nat
  convertResType : Nat → ResourceType
  soundResourceType : Nat → ResourceType

/-- Modelled from the spec: version-order constants, with SCI 1.1 strictly
below SCI 2. -/
def SCI_VERSION_1_1 : Nat := 8

/-- Modelled from the spec: the first 32-bit engine generation. -/
def SCI_VERSION_2 : Nat := 9

/-- Modelled from the spec: game and platform ids used by the Hoyle 3
Amiga workaround in `kScriptID`. -/
def GID_HOYLE3 : Nat := 1

/-- Modelled from the spec: the Amiga platform id. -/
def kPlatformAmiga : Nat := 1

/-- VM engine state: the segment manager, the resource manager, the
accumulator, the program counter of the innermost execution frame
(modelled from the spec as the execution-stack accessor) and the log of
SCI3 audio lock requests handed to the audio subsystem. -/
structure EngineState where
  segMan : SegManager
  resMan : ResMan
  r_acc : reg_t
  execTopPc : reg_t
  audio32Locks : List (ResourceId × Bool)
deriving DecidableEq, Repr

/-- The resource type `kLock` settles on: the converted first argument,
re-resolved through the sound subsystem for sound resources on SCI 1.1
and later (`kscripts.cpp` lines 85-88). -/
def kLockType (cfg : GameConfig) (argv : List reg_t) : ResourceType :=
  let type0 := cfg.convertResType (argv.getD 0 NULL_REG).toUint16
  if type0 = ResourceType.sound ∧ SCI_VERSION_1_1 ≤ cfg.sciVersion then
    cfg.soundResourceType (argv.getD 1 NULL_REG).toUint16
  else type0

/-- The resource id `kLock` builds from its arguments (line 90). -/
def kLockId (cfg : GameConfig) (argv : List reg_t) : ResourceId :=
  ⟨kLockType cfg argv, (argv.getD 1 NULL_REG).toUint16⟩

/-- `kLock` (`kscripts.cpp` lines 69-137): lock or unlock a resource,
with the SCI3 audio delegation, the SCI 1.1 Audio36/Sync36 early return,
and the legacy unlock-all sweep for number 0xFFFF before SCI 2. -/
def kLock (cfg : GameConfig) (s : EngineState) (argv : List reg_t) :
    EngineState × reg_t :=
  let type := kLockType cfg argv
  let id := kLockId cfg argv
  let lock : Bool := if 2 < argv.length then (argv.getD 2 NULL_REG).toUint16 != 0 else true
  if cfg.hasSci3Audio ∧ type = ResourceType.audio then
    ({ s with audio32Locks := (id, lock) :: s.audio32Locks }, s.r_acc)
  else if cfg.sciVersion = SCI_VERSION_1_1 ∧
      (type = ResourceType.audio36 ∨ type = ResourceType.sync36) then
    (s, s.r_acc)
  else if lock then
    ({ s with resMan := (findResource s.resMan id true).1 }, s.r_acc)
  else if cfg.sciVersion < SCI_VERSION_2 ∧ id.number = 65535 then
    ({ s with resMan := unlockAllOfType s.resMan type }, s.r_acc)
  else
    ({ s with resMan := unlockStep s.resMan id }, s.r_acc)

/-- `kClone` (`kscripts.cpp` lines 195-241): resolve the parent, allocate
a clone slot, re-resolve the parent when it is itself a clone, copy the
field block, mark the copy as a clone, point its species at itself and its
superclass at the parent when the parent is a class, and increment the
locker counts of the segments of parent and clone. -/
def kClone (s : EngineState) (argv : List reg_t) :
    Except EngineError (EngineState × reg_t) :=
  let parentAddr := argv.getD 0 NULL_REG
  match getObject s.segMan parentAddr with
  | none => .error (.cloneNonObject parentAddr)
  | some parentObj0 =>
    let infoSelector := parentObj0.infoSelector.toUint16
    let alloc := allocateClone s.segMan
    let sm1 := alloc.1
    let cloneAddr := alloc.2
    match (if infoSelector &&& kInfoFlagClone ≠ 0 then getObject sm1 parentAddr
           else some parentObj0) with
    | none => .error (.cloneNonObject parentAddr)
    | some parentObj =>
      let copied : Object :=
        { infoSelector := parentObj.infoSelector,
          species := parentObj.species,
          superClass := parentObj.superClass,
          vars := parentObj.vars,
          freed := false }
      let info2 := (infoSelector &&& (65535 ^^^ kInfoFlagClass)) ||| kInfoFlagClone
      let cloneObj : Object :=
        { copied with
            infoSelector := make_reg 0 info2,
            species := cloneAddr,
            superClass := if parentObj.isClass then parentAddr else copied.superClass }
      let sm2 := setObject sm1 cloneAddr cloneObj
      match incrementLockersE sm2 parentAddr.segment with
      | .error e => .error e
      | .ok sm3 =>
        match incrementLockersE sm3 cloneAddr.segment with
        | .error e => .error e
        | .ok sm4 => .ok ({ s with segMan := sm4 }, cloneAddr)

/-- `kDisposeClone` (`kscripts.cpp` lines 243-262): resolve the object,
mark it freed exactly when the low two info bits equal the clone pattern,
and return the accumulator. -/
def kDisposeClone (s : EngineState) (argv : List reg_t) :
    Except EngineError (EngineState × reg_t) :=
  let obj := argv.getD 0 NULL_REG
  match getObject s.segMan obj with
  | none => .error (.disposeNonObject obj)
  | some object =>
    let infoSelector := object.infoSelector.toUint16
    let s1 :=
      if infoSelector &&& 3 = kInfoFlagClone then
        { s with segMan := setObject s.segMan obj { object with freed := true } }
      else s
    .ok (s1, s1.r_acc)

/-- Modelled from the spec: instantiate a script that is not yet loaded —
install its record in a fresh segment and map the script number to it;
yield segment 0 when the script cannot be found. -/
def loadScript (sm : SegManager) (script : Nat) : SegManager × Nat :=
  match findVal script sm.loadable with
  | none => (sm, 0)
  | some tmpl =>
    let seg := sm.nextSegId + 1
    ({ sm with
        nextSegId := seg,
        scripts := setVal seg tmpl sm.scripts,
        scriptSegMap := setVal script seg sm.scriptSegMap }, seg)

/-- Modelled from the spec: `getScriptSegment(script, SCRIPT_GET_LOAD)` —
locate the loaded segment of a script number, loading it when absent. -/
def getScriptSegmentLoad (sm : SegManager) (script : Nat) : SegManager × Nat :=
  match findVal script sm.scriptSegMap with
  | some seg => if (findVal seg sm.scripts).isSome then (sm, seg) else loadScript sm script
  | none => loadScript sm script

/-- The part of `kScriptID` after script-segment resolution (`kscripts.cpp`
lines 274-297), over the state `s1` that already holds the possibly grown
segment manager: null for segment zero, fatal on a non-script segment,
null for an empty dispatch table unless exactly two arguments were passed
(then fatal), the Hoyle 3 Amiga workaround, then the export lookup, fatal
when out of range. -/
def kScriptIDCont (cfg : GameConfig) (s1 : EngineState)
    (script index argc scriptSeg : Nat) :
    Except EngineError (EngineState × reg_t) :=
  if scriptSeg = 0 then .ok (s1, NULL_REG)
  else
    match getScript s1.segMan scriptSeg with
    | none => .error (.notAScriptSegment scriptSeg)
    | some scr =>
      if scr.exports.length = 0 then
        if argc = 2 then .error (.noDispatchEntry script index)
        else .ok (s1, NULL_REG)
      else if cfg.gameId = GID_HOYLE3 ∧ cfg.platform = kPlatformAmiga ∧
          script = 601 ∧ argc = 1 then
        .ok (s1, NULL_REG)
      else
        match scr.exports[index]? with
        | none => .error (.exportOutOfRange index)
        | some entry => .ok (s1, make_reg32 scriptSeg (entry + scr.heapOffset))

/-- `kScriptID` (`kscripts.cpp` lines 265-298): pass non-null segments
through unchanged, otherwise resolve or load the script and continue with
`kScriptIDCont`. -/
def kScriptID (cfg : GameConfig) (s : EngineState) (argv : List reg_t) :
    Except EngineError (EngineState × reg_t) :=
  let script := (argv.getD 0 NULL_REG).toUint16
  let index := if 1 < argv.length then (argv.getD 1 NULL_REG).toUint16 else 0
  if (argv.getD 0 NULL_REG).segment ≠ 0 then .ok (s, argv.getD 0 NULL_REG)
  else
    let res := getScriptSegmentLoad s.segMan script
    kScriptIDCont cfg { s with segMan := res.1 } script index argv.length res.2

/-- `getScriptSegment(script)` without loading: the recorded mapping, or
zero when none exists. -/
def getScriptSegment1 (sm : SegManager) (script : Nat) : Nat :=
  (findVal script sm.scriptSegMap).getD 0

/-- The first phase of `kDisposeScript` (`kscripts.cpp` lines 303-308):
when the script is loaded and not marked deleted, and the innermost
execution frame is not inside its segment, force the locker count to
exactly one; otherwise leave the state untouched. -/
def disposeScriptLockerPhase (s : EngineState) (script : Nat) : EngineState :=
  let id := getScriptSegment1 s.segMan script
  match findVal id s.segMan.scripts with
  | none => s
  | some scr =>
    if scr.markedAsDeleted then s
    else if s.execTopPc.segment ≠ id then
      { s with segMan :=
          { s.segMan with scripts := setVal id { scr with lockers := 1 } s.segMan.scripts } }
    else s

/-- Modelled from the spec: the generic uninstantiate step — drop one
locker and, when the count reaches zero, mark the segment deleted so the
reclamation path fires. -/
def uninstantiateScript (sm : SegManager) (script : Nat) : SegManager :=
  match findVal script sm.scriptSegMap with
  | none => sm
  | some seg =>
    match findVal seg sm.scripts with
    | none => sm
    | some scr =>
      let scr1 : Script := { scr with lockers := scr.lockers - 1 }
      if scr1.lockers = 0 then
        { sm with scripts := setVal seg { scr1 with markedAsDeleted := true } sm.scripts }
      else
        { sm with scripts := setVal seg scr1 sm.scripts }

/-- `kDisposeScript` (`kscripts.cpp` lines 300-317): the locker-forcing
phase, then the generic uninstantiation, then the return value — the
accumulator unless exactly two arguments were passed, in which case the
second argument is passed through. -/
def kDisposeScript (s : EngineState) (argv : List reg_t) : EngineState × reg_t :=
  let script := (argv.getD 0 NULL_REG).offset
  let s1 := disposeScriptLockerPhase s script
  let s2 : EngineState := { s1 with segMan := uninstantiateScript s1.segMan script }
  (s2, if argv.length ≠ 2 then s2.r_acc else argv.getD 1 NULL_REG)

/-- `kIsObject` (`kscripts.cpp` lines 319-324): the signal sentinel offset
is treated specially and yields null; otherwise the heap-object test. -/
def kIsObject (s : EngineState) (argv : List reg_t) : reg_t :=
  if (argv.getD 0 NULL_REG).offset = SIGNAL_OFFSET then NULL_REG
  else make_reg 0 (if isHeapObject s.segMan (argv.getD 0 NULL_REG) then 1 else 0)

/-- A concrete class object used by the witness states: lives in script
segment 2, class bit set. -/
def classObjW : Object :=
  { infoSelector := ⟨0, 2⟩, species := ⟨2, 100⟩, superClass := ⟨2, 50⟩,
    vars := [⟨0, 7⟩], freed := false }

/-- A concrete clone object used by the witness states: lives in the
clone table segment 5, clone bit set. -/
def cloneObjW : Object :=
  { infoSelector := ⟨0, 1⟩, species := ⟨5, 0⟩, superClass := ⟨2, 100⟩,
    vars := [], freed := false }

/-- A concrete object whose low two info bits are 3, so it does not match
the clone pattern. -/
def oddObjW : Object :=
  { infoSelector := ⟨0, 3⟩, species := ⟨2, 200⟩, superClass := ⟨2, 100⟩,
    vars := [], freed := false }

/-- A concrete segment manager used by the witnesses. -/
def smW : SegManager :=
  { objects := [(⟨2, 100⟩, classObjW), (⟨5, 0⟩, cloneObjW), (⟨2, 200⟩, oddObjW)],
    scripts := [(2, ⟨4, [16, 32], false, 8⟩), (5, ⟨9, [], false, 0⟩)],
    scriptSegMap := [(100, 2)],
    loadable := [(110, ⟨1, [], false, 0⟩), (120, ⟨1, [40, 60], false, 4⟩)],
    clonesSegId := 5,
    nextCloneOffset := 1,
    nextSegId := 6 }

/-- A concrete resource manager used by the witnesses. -/
def rmW : ResMan :=
  { cache := [(⟨ResourceType.other 7, 3⟩, ⟨2⟩)],
    store := [⟨ResourceType.other 7, 3⟩, ⟨ResourceType.other 7, 4⟩] }

/-- A concrete engine state used by the witnesses. -/
def stW : EngineState :=
  { segMan := smW, resMan := rmW, r_acc := ⟨0, 42⟩, execTopPc := ⟨3, 60⟩,
    audio32Locks := [] }

/-- A concrete configuration used by the witnesses. -/
def cfgW : GameConfig :=
  { sciVersion := SCI_VERSION_1_1, hasSci3Audio := false, gameId := 0, platform := 0,
    convertResType := fun n => if n = 12 then ResourceType.audio36
      else if n = 4 then ResourceType.sound else ResourceType.other n,
    soundResourceType := fun _ => ResourceType.sync36 }

@[simp] theorem findVal_setVal_self {K V : Type} [DecidableEq K]
    (k : K) (v : V) (l : List (K × V)) : findVal k (setVal k v l) = some v := by
  simp [findVal, setVal]

theorem findVal_setVal_of_ne {K V : Type} [DecidableEq K]
    {k k1 : K} {v : V} {l : List (K × V)} (h : k ≠ k1) :
    findVal k (setVal k1 v l) = findVal k l := by
  simp [findVal, setVal, h]

/-- C9: for every address whose offset equals the reserved signal-sentinel
offset, `kIsObject` returns the null value, for every engine state and
every segment component, without regard to the heap contents. -/
theorem kIsObject_signal_sentinel (s : EngineState) (a : reg_t)
    (h : a.offset = SIGNAL_OFFSET) : kIsObject s [a] = NULL_REG := by
  simp [kIsObject, h]

/-- Witness for C9 at a concrete state and address whose segment does hold
an object elsewhere. -/
theorem kIsObject_signal_sentinel_witness :
    (⟨2, SIGNAL_OFFSET⟩ : reg_t).offset = SIGNAL_OFFSET ∧
      kIsObject stW [⟨2, SIGNAL_OFFSET⟩] = NULL_REG :=
  ⟨rfl, kIsObject_signal_sentinel stW ⟨2, SIGNAL_OFFSET⟩ rfl⟩

/-- C10: when the version is exactly SCI 1.1 and the converted resource
type is Audio36 or Sync36, `kLock` returns the accumulator and the state
unchanged, for either value of the lock flag. -/
theorem kLock_sci11_audio36_noop (cfg : GameConfig) (s : EngineState)
    (argv : List reg_t)
    (hver : cfg.sciVersion = SCI_VERSION_1_1)
    (hty : kLockType cfg argv = ResourceType.audio36 ∨
      kLockType cfg argv = ResourceType.sync36) :
    kLock cfg s argv = (s, s.r_acc) := by
  have h1 : ¬ (cfg.hasSci3Audio ∧ kLockType cfg argv = ResourceType.audio) := by
    rcases hty with h | h <;> simp [h]
  unfold kLock
  rw [if_neg h1, if_pos ⟨hver, hty⟩]

/-- Witness for C10: a lock request and an unlock request for a converted
Audio36 resource at SCI 1.1 both leave the concrete state untouched. -/
theorem kLock_sci11_audio36_noop_witness :
    cfgW.sciVersion = SCI_VERSION_1_1 ∧
      (kLockType cfgW [⟨0, 12⟩, ⟨0, 9⟩, ⟨0, 0⟩] = ResourceType.audio36 ∨
        kLockType cfgW [⟨0, 12⟩, ⟨0, 9⟩, ⟨0, 0⟩] = ResourceType.sync36) ∧
      kLock cfgW stW [⟨0, 12⟩, ⟨0, 9⟩, ⟨0, 0⟩] = (stW, stW.r_acc) :=
  ⟨rfl, Or.inl (by decide),
    kLock_sci11_audio36_noop cfgW stW [⟨0, 12⟩, ⟨0, 9⟩, ⟨0, 0⟩] rfl (Or.inl (by decide))⟩

/-- C2: on an address resolving to a live object, `kDisposeClone` marks the
object freed exactly when the low two bits of its info selector equal the
clone pattern; otherwise the state is left entirely unchanged, so a later
`isHeapObject` answers as before.  The call returns the accumulator. -/
theorem kDisposeClone_clone_pattern (s : EngineState) (a : reg_t) (o : Object)
    (ho : getObject s.segMan a = some o) (hlive : o.freed = false) :
    ∃ s1, kDisposeClone s [a] = .ok (s1, s.r_acc) ∧
      ((o.infoSelector.toUint16 &&& 3 = kInfoFlagClone) →
        getObject s1.segMan a = some { o with freed := true } ∧
        isHeapObject s1.segMan a = false) ∧
      (¬ (o.infoSelector.toUint16 &&& 3 = kInfoFlagClone) →
        s1 = s ∧ isHeapObject s1.segMan a = isHeapObject s.segMan a) := by
  by_cases hpat : o.infoSelector.toUint16 &&& 3 = kInfoFlagClone
  · refine ⟨{ s with segMan := setObject s.segMan a { o with freed := true } },
      ?_, fun _ => ⟨?_, ?_⟩, fun hc => absurd hpat hc⟩
    · simp only [kDisposeClone, List.getD_cons_zero]
      rw [ho]
      simp [hpat]
    · simp [getObject, setObject]
    · simp [isHeapObject, getObject, setObject]
  · refine ⟨s, ?_, fun hc => absurd hc hpat, fun _ => ⟨rfl, rfl⟩⟩
    simp only [kDisposeClone, List.getD_cons_zero]
    rw [ho]
    simp [hpat]

/-- Witness for C2, exercising both directions on concrete objects: the
clone at (5, 0) matches the pattern and is freed; the object at (2, 200)
with low bits 3 is left alone. -/
theorem kDisposeClone_clone_pattern_witness :
    (getObject stW.segMan ⟨5, 0⟩ = some cloneObjW ∧ cloneObjW.freed = false ∧
      ∃ s1, kDisposeClone stW [⟨5, 0⟩] = .ok (s1, stW.r_acc) ∧
        ((cloneObjW.infoSelector.toUint16 &&& 3 = kInfoFlagClone) →
          getObject s1.segMan ⟨5, 0⟩ = some { cloneObjW with freed := true } ∧
          isHeapObject s1.segMan ⟨5, 0⟩ = false) ∧
        (¬ (cloneObjW.infoSelector.toUint16 &&& 3 = kInfoFlagClone) →
          s1 = stW ∧ isHeapObject s1.segMan ⟨5, 0⟩ = isHeapObject stW.segMan ⟨5, 0⟩)) ∧
    (getObject stW.segMan ⟨2, 200⟩ = some oddObjW ∧ oddObjW.freed = false ∧
      ∃ s1, kDisposeClone stW [⟨2, 200⟩] = .ok (s1, stW.r_acc) ∧
        ((oddObjW.infoSelector.toUint16 &&& 3 = kInfoFlagClone) →
          getObject s1.segMan ⟨2, 200⟩ = some { oddObjW with freed := true } ∧
          isHeapObject s1.segMan ⟨2, 200⟩ = false) ∧
        (¬ (oddObjW.infoSelector.toUint16 &&& 3 = kInfoFlagClone) →
          s1 = stW ∧ isHeapObject s1.segMan ⟨2, 200⟩ = isHeapObject stW.segMan ⟨2, 200⟩)) :=
  ⟨⟨by decide, rfl, kDisposeClone_clone_pattern stW ⟨5, 0⟩ cloneObjW (by decide) rfl⟩,
   ⟨by decide, rfl, kDisposeClone_clone_pattern stW ⟨2, 200⟩ oddObjW (by decide) rfl⟩⟩

/-- C5 counterexample: with a second argument supplied, `kDisposeClone`
still returns the accumulator, not the passthrough value — at this
concrete input the result is the accumulator 42, unequal to the supplied
second argument 43. -/
theorem kDisposeClone_passthrough_cex :
    Except.map Prod.snd (kDisposeClone stW [⟨2, 200⟩, ⟨0, 43⟩]) =
      (Except.ok ⟨0, 42⟩ : Except EngineError reg_t) ∧
      (⟨0, 42⟩ : reg_t) ≠ (⟨0, 43⟩ : reg_t) := by
  constructor
  · decide
  · decide

/-- C5 amended: whenever `kDisposeClone` succeeds it returns the VM
accumulator, for any argument count; a supplied second argument is
ignored. -/
theorem kDisposeClone_returns_acc (s : EngineState) (argv : List reg_t)
    (s1 : EngineState) (r : reg_t)
    (h : kDisposeClone s argv = .ok (s1, r)) : r = s.r_acc := by
  simp only [kDisposeClone] at h
  cases hg : getObject s.segMan (argv.getD 0 NULL_REG) with
  | none => rw [hg] at h; exact absurd h (by simp)
  | some o =>
    rw [hg] at h
    by_cases hpat : o.infoSelector.toUint16 &&& 3 = kInfoFlagClone
    · simp only [hpat, if_pos] at h
      cases h
      rfl
    · simp only [if_neg hpat] at h
      cases h
      rfl

/-- Witness for C5 at a concrete two-argument call. -/
theorem kDisposeClone_returns_acc_witness :
    kDisposeClone stW [⟨2, 200⟩, ⟨0, 43⟩] = .ok (stW, stW.r_acc) ∧
      stW.r_acc = stW.r_acc :=
  ⟨by decide,
   kDisposeClone_returns_acc stW [⟨2, 200⟩, ⟨0, 43⟩] stW stW.r_acc (by decide)⟩

theorem getScriptSegmentLoad_zero {sm sm1 : SegManager} {n : Nat}
    (h : getScriptSegmentLoad sm n = (sm1, 0)) : sm1 = sm := by
  unfold getScriptSegmentLoad loadScript at h
  split at h
  · split at h
    · injection h with h1 _
      exact h1.symm
    · split at h
      · injection h with h1 _
        exact h1.symm
      · injection h with _ h2
        exact absurd h2 (Nat.succ_ne_zero _)
  · split at h
    · injection h with h1 _
      exact h1.symm
    · injection h with _ h2
      exact absurd h2 (Nat.succ_ne_zero _)

theorem getScriptSegmentLoad_stable {sm sm1 : SegManager} {n seg : Nat}
    (h : getScriptSegmentLoad sm n = (sm1, seg)) (hs : seg ≠ 0) :
    getScriptSegmentLoad sm1 n = (sm1, seg) ∧
      (findVal seg sm1.scripts).isSome = true := by
  unfold getScriptSegmentLoad at h
  split at h
  case h_1 seg0 hmap =>
    split at h
    case isTrue hload =>
      injection h with h1 h2
      subst h1
      subst h2
      refine ⟨?_, hload⟩
      unfold getScriptSegmentLoad
      rw [hmap]
      simp [hload]
    case isFalse hnot =>
      unfold loadScript at h
      split at h
      · injection h with _ h2
        exact absurd h2.symm hs
      case h_2 tmpl htmpl =>
        injection h with h1 h2
        subst h1
        subst h2
        constructor
        · unfold getScriptSegmentLoad
          simp
        · simp
  case h_2 hmap =>
    unfold loadScript at h
    split at h
    · injection h with _ h2
      exact absurd h2.symm hs
    case h_2 tmpl htmpl =>
      injection h with h1 h2
      subst h1
      subst h2
      constructor
      · unfold getScriptSegmentLoad
        simp
      · simp

theorem kScriptIDCont_state {cfg : GameConfig} {t s1 : EngineState}
    {script index argc scriptSeg : Nat} {r : reg_t}
    (h : kScriptIDCont cfg t script index argc scriptSeg = .ok (s1, r)) :
    s1 = t := by
  unfold kScriptIDCont at h
  split at h
  · injection h with h1
    injection h1 with h2 _
    exact h2.symm
  · split at h
    · exact absurd h (by simp)
    · split at h
      · split at h
        · exact absurd h (by simp)
        · injection h with h1
          injection h1 with h2 _
          exact h2.symm
      · split at h
        · injection h with h1
          injection h1 with h2 _
          exact h2.symm
        · split at h
          · exact absurd h (by simp)
          · injection h with h1
            injection h1 with h2 _
            exact h2.symm

/-- C4: on `kDisposeScript` for a script whose segment is loaded and not
marked deleted, the state handed to the generic uninstantiation step has
the locker count forced to exactly one when the innermost execution frame
lies outside the segment, and left unchanged when it lies inside it. -/
theorem kDisposeScript_locker_force (s : EngineState) (a : reg_t)
    (sid : Nat) (scr : Script)
    (hid : getScriptSegment1 s.segMan a.offset = sid)
    (hscr : findVal sid s.segMan.scripts = some scr)
    (hdel : scr.markedAsDeleted = false) :
    lockersOf (disposeScriptLockerPhase s a.offset).segMan sid =
      (if s.execTopPc.segment ≠ sid then 1 else lockersOf s.segMan sid) ∧
    ∀ rest : List reg_t,
      (kDisposeScript s (a :: rest)).1.segMan =
        uninstantiateScript (disposeScriptLockerPhase s a.offset).segMan a.offset := by
  refine ⟨?_, fun rest => rfl⟩
  simp only [disposeScriptLockerPhase]
  rw [hid, hscr]
  by_cases hpc : s.execTopPc.segment = sid
  · simp [hdel, hpc]
  · simp [hdel, hpc, lockersOf]

/-- Witness for C4 in both directions: at `stW` the executing frame is in
segment 3, so disposing script 100 (segment 2) forces the locker count to
one; at the variant state executing inside segment 2 the count stays 4. -/
theorem kDisposeScript_locker_force_witness :
    (lockersOf (disposeScriptLockerPhase stW (100 : Nat)).segMan 2 =
        (if stW.execTopPc.segment ≠ 2 then 1 else lockersOf stW.segMan 2) ∧
      ∀ rest : List reg_t,
        (kDisposeScript stW ((⟨0, 100⟩ : reg_t) :: rest)).1.segMan =
          uninstantiateScript (disposeScriptLockerPhase stW (100 : Nat)).segMan 100) ∧
    (lockersOf
        (disposeScriptLockerPhase { stW with execTopPc := ⟨2, 30⟩ } (100 : Nat)).segMan 2 =
      (if ({ stW with execTopPc := ⟨2, 30⟩ } : EngineState).execTopPc.segment ≠ 2 then 1
       else lockersOf ({ stW with execTopPc := ⟨2, 30⟩ } : EngineState).segMan 2)) :=
  ⟨kDisposeScript_locker_force stW ⟨0, 100⟩ 2 ⟨4, [16, 32], false, 8⟩
      (by decide) (by decide) rfl,
   (kDisposeScript_locker_force { stW with execTopPc := ⟨2, 30⟩ } ⟨0, 100⟩ 2
      ⟨4, [16, 32], false, 8⟩ (by decide) (by decide) rfl).1⟩

/-- C6: for a loadable script whose segment has an empty dispatch table,
`kScriptID` with just the script number returns null without error, while
an explicitly requested export is a fatal error; an explicitly requested
export index out of range of a non-empty dispatch table is fatal too. -/
theorem kScriptID_dispatch (cfg : GameConfig) (s : EngineState) (a : reg_t)
    (sm1 : SegManager) (seg : Nat) (scr : Script)
    (h0 : a.segment = 0)
    (hload : getScriptSegmentLoad s.segMan a.toUint16 = (sm1, seg))
    (hseg : seg ≠ 0)
    (hscr : getScript sm1 seg = some scr) :
    (scr.exports = [] →
      kScriptID cfg s [a] = .ok ({ s with segMan := sm1 }, NULL_REG) ∧
      ∀ b : reg_t, ∃ err, kScriptID cfg s [a, b] = .error err) ∧
    (∀ b : reg_t, scr.exports ≠ [] → scr.exports[b.toUint16]? = none →
      ∃ err, kScriptID cfg s [a, b] = .error err) := by
  have hred1 : kScriptID cfg s [a] =
      kScriptIDCont cfg { s with segMan := sm1 } a.toUint16 0 1 seg := by
    simp only [kScriptID, List.getD_cons_zero, List.length_cons, List.length_nil, h0]
    rw [hload]
    simp
  have hred2 : ∀ b : reg_t, kScriptID cfg s [a, b] =
      kScriptIDCont cfg { s with segMan := sm1 } a.toUint16 b.toUint16 2 seg := by
    intro b
    simp only [kScriptID, List.getD_cons_zero, List.getD_cons_succ,
      List.length_cons, List.length_nil, h0]
    rw [hload]
    simp
  refine ⟨fun hexp => ⟨?_, fun b => ?_⟩, fun b hne hoob => ?_⟩
  · rw [hred1]
    simp [kScriptIDCont, hseg, hscr, hexp]
  · rw [hred2 b]
    refine ⟨.noDispatchEntry a.toUint16 b.toUint16, ?_⟩
    simp [kScriptIDCont, hseg, hscr, hexp]
  · rw [hred2 b]
    refine ⟨.exportOutOfRange b.toUint16, ?_⟩
    have hlen : scr.exports.length ≠ 0 := by
      simpa [List.length_eq_zero] using hne
    simp [kScriptIDCont, hseg, hscr, hlen, hoob]

/-- Witness for C6: script 110 loads with an empty dispatch table — the
one-argument call yields null, the two-argument call is fatal; script 120
loads with two exports and export index 5 is fatal. -/
theorem kScriptID_dispatch_witness :
    (kScriptID cfgW stW [⟨0, 110⟩] =
      .ok ({ stW with segMan := (getScriptSegmentLoad smW 110).1 }, NULL_REG)) ∧
    (∃ err, kScriptID cfgW stW [⟨0, 110⟩, ⟨0, 1⟩] = .error err) ∧
    (∃ err, kScriptID cfgW stW [⟨0, 120⟩, ⟨0, 5⟩] = .error err) :=
  ⟨((kScriptID_dispatch cfgW stW ⟨0, 110⟩ (getScriptSegmentLoad smW 110).1 7
      ⟨1, [], false, 0⟩ rfl (by decide) (by decide) (by decide)).1 rfl).1,
   ((kScriptID_dispatch cfgW stW ⟨0, 110⟩ (getScriptSegmentLoad smW 110).1 7
      ⟨1, [], false, 0⟩ rfl (by decide) (by decide) (by decide)).1 rfl).2 ⟨0, 1⟩,
   (kScriptID_dispatch cfgW stW ⟨0, 120⟩ (getScriptSegmentLoad smW 120).1 7
      ⟨1, [40, 60], false, 4⟩ rfl (by decide) (by decide) (by decide)).2 ⟨0, 5⟩
      (by decide) (by decide)⟩

/-- C7: a first argument with a non-null segment passes through unchanged
with no state change; and a successful `kScriptID` resolution with one
argument is idempotent — repeating the call on the resulting state returns
the same segment-qualified address and the very same state, so no locker
count moves on the second call. -/
theorem kScriptID_passthrough_idem (cfg : GameConfig) :
    (∀ (s : EngineState) (a : reg_t), a.segment ≠ 0 →
      kScriptID cfg s [a] = .ok (s, a)) ∧
    (∀ (s s1 : EngineState) (a r : reg_t),
      kScriptID cfg s [a] = .ok (s1, r) →
      kScriptID cfg s1 [a] = .ok (s1, r)) := by
  constructor
  · intro s a h
    simp [kScriptID, h]
  · intro s s1 a r h
    by_cases hseg : a.segment = 0
    · have hred : ∀ t : EngineState, kScriptID cfg t [a] =
          kScriptIDCont cfg
            { t with segMan := (getScriptSegmentLoad t.segMan a.toUint16).1 }
            a.toUint16 0 1 (getScriptSegmentLoad t.segMan a.toUint16).2 := by
        intro t
        simp only [kScriptID, List.getD_cons_zero, List.length_cons,
          List.length_nil, hseg]
        simp
      rw [hred s] at h
      cases hp : getScriptSegmentLoad s.segMan a.toUint16 with
      | mk sm1 seg =>
        rw [hp] at h
        have hstate : s1 = { s with segMan := sm1 } := kScriptIDCont_state h
        by_cases hz : seg = 0
        · subst hz
          have hsm : sm1 = s.segMan := getScriptSegmentLoad_zero hp
          subst hsm
          have hs1 : s1 = s := hstate
          rw [hs1] at h ⊢
          rw [hred s, hp]
          exact h
        · have hstab := (getScriptSegmentLoad_stable hp hz).1
          subst hstate
          rw [hred { s with segMan := sm1 }]
          have : getScriptSegmentLoad
              ({ s with segMan := sm1 } : EngineState).segMan a.toUint16 =
              (sm1, seg) := hstab
          rw [this]
          exact h
    · have ha : kScriptID cfg s [a] = .ok (s, a) := by simp [kScriptID, hseg]
      rw [ha] at h
      injection h with h1
      injection h1 with h2 h3
      subst h2
      subst h3
      simp [kScriptID, hseg]

theorem incrementLockersE_eq {sm : SegManager} {seg : Nat} {scr : Script}
    (h : findVal seg sm.scripts = some scr) :
    incrementLockersE sm seg =
      .ok { sm with
        scripts := setVal seg { scr with lockers := scr.lockers + 1 } sm.scripts } := by
  unfold incrementLockersE getScript
  rw [h]

theorem cloneInfo_low_two (x : Nat) :
    (make_reg 0 ((x &&& (65535 ^^^ kInfoFlagClass)) ||| kInfoFlagClone)).toUint16 &&& 3 =
      kInfoFlagClone := by
  have hmm : ((x &&& 65533) ||| 1) % 65536 % 65536 = ((x &&& 65533) ||| 1) % 65536 := by
    omega
  show ((x &&& 65533) ||| 1) % 65536 % 65536 &&& 3 = 1
  rw [hmm]
  have h65536 : (65536 : Nat) = 2 ^ 16 := by norm_num
  rw [h65536]
  refine Nat.eq_of_testBit_eq fun i => ?_
  simp only [Nat.testBit_and, Nat.testBit_or, Nat.testBit_mod_two_pow]
  match i with
  | 0 => simp
  | 1 => simp [Nat.testBit_succ]
  | (n + 2) =>
    have h3 : (3 : Nat) < 2 ^ (n + 2) := by
      calc (3 : Nat) < 4 := by norm_num
      _ = 2 ^ 2 := by norm_num
      _ ≤ 2 ^ (n + 2) := Nat.pow_le_pow_right (by norm_num) (by omega)
    have h1 : (1 : Nat) < 2 ^ (n + 2) := by omega
    rw [Nat.testBit_lt_two_pow h3, Nat.testBit_lt_two_pow h1]
    simp

/-- How `kClone` evaluates on a resolvable parent: the fresh slot receives
`cloneResult`, and the locker counts of the parent segment and of the
clone segment are bumped in that order.  `scrX` is the record found for
the clone segment after the first bump. -/
theorem kClone_eq (s : EngineState) (C : reg_t) (p : Object) (scrP scrX : Script)
    (hp : getObject s.segMan C = some p)
    (hfresh : getObject s.segMan (cloneAddrOf s.segMan) = none)
    (hscrP : findVal C.segment s.segMan.scripts = some scrP)
    (hscrX : findVal (cloneAddrOf s.segMan).segment
      (setVal C.segment { scrP with lockers := scrP.lockers + 1 } s.segMan.scripts) =
      some scrX) :
    kClone s [C] = .ok
      ({ s with segMan :=
        { s.segMan with
            nextCloneOffset := s.segMan.nextCloneOffset + 1,
            objects := setVal (cloneAddrOf s.segMan)
              (cloneResult (cloneAddrOf s.segMan) C p)
              (setVal (cloneAddrOf s.segMan) emptyObj s.segMan.objects),
            scripts := setVal (cloneAddrOf s.segMan).segment
              { scrX with lockers := scrX.lockers + 1 }
              (setVal C.segment { scrP with lockers := scrP.lockers + 1 }
                s.segMan.scripts) } },
       cloneAddrOf s.segMan) := by
  have hne : cloneAddrOf s.segMan ≠ C := by
    intro he
    rw [he, hp] at hfresh
    exact Option.noConfusion hfresh
  have hif : (if p.infoSelector.toUint16 &&& kInfoFlagClone ≠ 0
      then findVal C (setVal (cloneAddrOf s.segMan) emptyObj s.segMan.objects)
      else some p) = some p := by
    split
    · rw [findVal_setVal_of_ne (Ne.symm hne)]
      exact hp
    · rfl
  simp only [kClone, List.getD_cons_zero]
  rw [hp]
  simp only [getObject, allocateClone, setObject, incrementLockersE, getScript]
  rw [hif]
  simp only [hscrP]
  rw [hscrX]
  rfl

/-- C1: cloning a class object that resolves to a live object yields a
fresh address distinct from the parent; the new object has its species
pointing at itself, its superclass pointing at the parent, the Clone bit
set with the Class bit clear in the low info bits, it is a live heap
object, and the locker counts of the parent segment and the clone segment
are each incremented by one — twice on the same segment when they
coincide. -/
theorem kClone_of_class (s : EngineState) (C : reg_t) (p : Object)
    (hp : getObject s.segMan C = some p)
    (hclass : p.isClass = true)
    (hfresh : getObject s.segMan (cloneAddrOf s.segMan) = none)
    (hsp : (findVal C.segment s.segMan.scripts).isSome = true)
    (hsa : (findVal (cloneAddrOf s.segMan).segment s.segMan.scripts).isSome = true) :
    ∃ s1 obj,
      kClone s [C] = .ok (s1, cloneAddrOf s.segMan) ∧
      cloneAddrOf s.segMan ≠ C ∧
      getObject s1.segMan (cloneAddrOf s.segMan) = some obj ∧
      obj.species = cloneAddrOf s.segMan ∧
      obj.superClass = C ∧
      obj.infoSelector.toUint16 &&& 3 = kInfoFlagClone ∧
      isHeapObject s1.segMan (cloneAddrOf s.segMan) = true ∧
      ∀ g, lockersOf s1.segMan g = lockersOf s.segMan g
        + (if g = C.segment then 1 else 0)
        + (if g = (cloneAddrOf s.segMan).segment then 1 else 0) := by
  obtain ⟨scrP, hscrP⟩ := Option.isSome_iff_exists.mp hsp
  obtain ⟨scrA, hscrA⟩ := Option.isSome_iff_exists.mp hsa
  have hne : cloneAddrOf s.segMan ≠ C := by
    intro he
    rw [he, hp] at hfresh
    exact Option.noConfusion hfresh
  by_cases hseg : (cloneAddrOf s.segMan).segment = C.segment
  · have hscrX : findVal (cloneAddrOf s.segMan).segment
        (setVal C.segment { scrP with lockers := scrP.lockers + 1 } s.segMan.scripts) =
        some { scrP with lockers := scrP.lockers + 1 } := by
      rw [hseg]
      exact findVal_setVal_self ..
    have hres := kClone_eq s C p scrP _ hp hfresh hscrP hscrX
    refine ⟨_, cloneResult (cloneAddrOf s.segMan) C p, hres, hne,
      findVal_setVal_self .., rfl, ?_, cloneInfo_low_two _, ?_, ?_⟩
    · simp [cloneResult, hclass]
    · simp [isHeapObject, getObject, cloneResult]
    · intro g
      by_cases hg : g = C.segment
      · subst hg
        simp [lockersOf, hseg, findVal_setVal_self, hscrP]
      · have hga : g ≠ (cloneAddrOf s.segMan).segment := by
          rw [hseg]
          exact hg
        simp [lockersOf, findVal_setVal_of_ne hga, findVal_setVal_of_ne hg, hg, hga]
  · have hscrX : findVal (cloneAddrOf s.segMan).segment
        (setVal C.segment { scrP with lockers := scrP.lockers + 1 } s.segMan.scripts) =
        some scrA := by
      rw [findVal_setVal_of_ne hseg]
      exact hscrA
    have hres := kClone_eq s C p scrP _ hp hfresh hscrP hscrX
    refine ⟨_, cloneResult (cloneAddrOf s.segMan) C p, hres, hne,
      findVal_setVal_self .., rfl, ?_, cloneInfo_low_two _, ?_, ?_⟩
    · simp [cloneResult, hclass]
    · simp [isHeapObject, getObject, cloneResult]
    · intro g
      by_cases hgA : g = (cloneAddrOf s.segMan).segment
      · subst hgA
        simp [lockersOf, findVal_setVal_self, hscrA, findVal_setVal_of_ne hseg, hseg]
      · by_cases hgC : g = C.segment
        · subst hgC
          have hCA : C.segment ≠ (cloneAddrOf s.segMan).segment := fun he => hseg he.symm
          simp [lockersOf, findVal_setVal_of_ne hCA, findVal_setVal_self, hscrP, hCA]
        · simp [lockersOf, findVal_setVal_of_ne hgA, findVal_setVal_of_ne hgC, hgC, hgA]

/-- Witness for C1: cloning the class at (2, 100) in the concrete state;
the new clone lands at (5, 1) and segments 2 and 5 each gain one locker. -/
theorem kClone_of_class_witness :
    ∃ s1 obj,
      kClone stW [⟨2, 100⟩] = .ok (s1, cloneAddrOf stW.segMan) ∧
      cloneAddrOf stW.segMan ≠ ⟨2, 100⟩ ∧
      getObject s1.segMan (cloneAddrOf stW.segMan) = some obj ∧
      obj.species = cloneAddrOf stW.segMan ∧
      obj.superClass = ⟨2, 100⟩ ∧
      obj.infoSelector.toUint16 &&& 3 = kInfoFlagClone ∧
      isHeapObject s1.segMan (cloneAddrOf stW.segMan) = true ∧
      ∀ g, lockersOf s1.segMan g = lockersOf stW.segMan g
        + (if g = (⟨2, 100⟩ : reg_t).segment then 1 else 0)
        + (if g = (cloneAddrOf stW.segMan).segment then 1 else 0) :=
  kClone_of_class stW ⟨2, 100⟩ classObjW (by decide) (by decide) (by decide)
    (by decide) (by decide)

/-- C3: cloning an object that is itself a clone (not a class) leaves the
new object's superclass equal to the parent's superclass, exactly the
copied field; in particular it is not redirected to the parent's own
address. -/
theorem kClone_of_clone_superclass (s : EngineState) (C : reg_t) (p : Object)
    (hp : getObject s.segMan C = some p)
    (hclone : p.infoSelector.toUint16 &&& kInfoFlagClone ≠ 0)
    (hnc : p.isClass = false)
    (hfresh : getObject s.segMan (cloneAddrOf s.segMan) = none)
    (hsp : (findVal C.segment s.segMan.scripts).isSome = true)
    (hsa : (findVal (cloneAddrOf s.segMan).segment s.segMan.scripts).isSome = true) :
    ∃ s1 obj,
      kClone s [C] = .ok (s1, cloneAddrOf s.segMan) ∧
      getObject s1.segMan (cloneAddrOf s.segMan) = some obj ∧
      obj.superClass = p.superClass ∧
      (p.superClass ≠ C → obj.superClass ≠ C) := by
  obtain ⟨scrP, hscrP⟩ := Option.isSome_iff_exists.mp hsp
  obtain ⟨scrA, hscrA⟩ := Option.isSome_iff_exists.mp hsa
  have hX : ∃ scrX, findVal (cloneAddrOf s.segMan).segment
      (setVal C.segment { scrP with lockers := scrP.lockers + 1 } s.segMan.scripts) =
      some scrX := by
    by_cases hseg : (cloneAddrOf s.segMan).segment = C.segment
    · exact ⟨_, by rw [hseg]; exact findVal_setVal_self ..⟩
    · exact ⟨scrA, by rw [findVal_setVal_of_ne hseg]; exact hscrA⟩
  obtain ⟨scrX, hscrX⟩ := hX
  have hres := kClone_eq s C p scrP scrX hp hfresh hscrP hscrX
  have hsup : (cloneResult (cloneAddrOf s.segMan) C p).superClass = p.superClass := by
    simp [cloneResult, hnc]
  exact ⟨_, cloneResult (cloneAddrOf s.segMan) C p, hres, findVal_setVal_self ..,
    hsup, fun hne2 => hsup ▸ hne2⟩

/-- Witness for C3: cloning the clone at (5, 0); the new clone keeps the
superclass (2, 100) of its parent rather than the parent address (5, 0). -/
theorem kClone_of_clone_superclass_witness :
    ∃ s1 obj,
      kClone stW [⟨5, 0⟩] = .ok (s1, cloneAddrOf stW.segMan) ∧
      getObject s1.segMan (cloneAddrOf stW.segMan) = some obj ∧
      obj.superClass = cloneObjW.superClass ∧
      (cloneObjW.superClass ≠ ⟨5, 0⟩ → obj.superClass ≠ ⟨5, 0⟩) :=
  kClone_of_clone_superclass stW ⟨5, 0⟩ cloneObjW (by decide) (by decide) (by decide)
    (by decide) (by decide) (by decide)

/-- Witness for C7: resolving script 120 twice from the concrete state —
the second call returns the same address and leaves the state of the first
call untouched; and a pass-through call at a non-null segment. -/
theorem kScriptID_passthrough_idem_witness :
    kScriptID cfgW stW [⟨2, 9⟩] = .ok (stW, ⟨2, 9⟩) ∧
      kScriptID cfgW
        ((kScriptID cfgW stW [⟨0, 120⟩]).toOption.get (by decide)).1 [⟨0, 120⟩] =
      .ok (((kScriptID cfgW stW [⟨0, 120⟩]).toOption.get (by decide)).1,
           ((kScriptID cfgW stW [⟨0, 120⟩]).toOption.get (by decide)).2) :=
  ⟨(kScriptID_passthrough_idem cfgW).1 stW ⟨2, 9⟩ (by decide),
   (kScriptID_passthrough_idem cfgW).2 stW
     ((kScriptID cfgW stW [⟨0, 120⟩]).toOption.get (by decide)).1 ⟨0, 120⟩
     ((kScriptID cfgW stW [⟨0, 120⟩]).toOption.get (by decide)).2 (by decide)⟩

theorem lockCount_findResource_lock (rm : ResMan) (id : ResourceId) :
    lockCount (findResource rm id true).1 id = lockCount rm id + 1 ∨
      ((findResource rm id true).1 = rm ∧ lockCount rm id = 0) := by
  unfold findResource lockCount
  cases hc : findVal id rm.cache with
  | some r =>
    left
    simp [hc]
  | none =>
    by_cases hs : id ∈ rm.store
    · left
      simp [hc, hs]
    · right
      simp [hc, hs]

theorem lockCount_unlockStep (rm : ResMan) (id : ResourceId) :
    lockCount (unlockStep rm id) id = lockCount rm id - 1 := by
  unfold unlockStep findResource
  cases hc : findVal id rm.cache with
  | some r =>
    simp only [hc]
    unfold unlockResource
    by_cases hz : r.lockers = 0
    · simp [lockCount, hc, hz]
    · simp [lockCount, hc, hz]
  | none =>
    by_cases hs : id ∈ rm.store
    · simp only [hc, hs, if_true]
      unfold unlockResource
      simp [lockCount, hc]
    · simp [lockCount, hc, hs]

theorem findVal_unlockMap (l : List (ResourceId × Resource)) (t : ResourceType)
    (id : ResourceId) (hty : id.ty = t) :
    findVal id (l.map fun p =>
        (p.1, if p.1.ty = t ∧ 0 < p.2.lockers then ⟨p.2.lockers - 1⟩ else p.2)) =
      (findVal id l).map
        (fun r => if 0 < r.lockers then ⟨r.lockers - 1⟩ else r) := by
  induction l with
  | nil => rfl
  | cons hd tl ih =>
    obtain ⟨k, v⟩ := hd
    simp only [List.map_cons, findVal]
    by_cases hk : id = k
    · rw [if_pos hk, if_pos hk]
      have hkt : k.ty = t := by rw [← hk]; exact hty
      simp only [Option.map]
      congr 1
      by_cases hz : 0 < v.lockers
      · rw [if_pos ⟨hkt, hz⟩, if_pos hz]
      · rw [if_neg (fun hcc => hz hcc.2), if_neg hz]
    · rw [if_neg hk, if_neg hk]
      exact ih

theorem lockCount_unlockAllOfType (rm : ResMan) (t : ResourceType)
    (id : ResourceId) (hty : id.ty = t) :
    lockCount (unlockAllOfType rm t) id = lockCount rm id - 1 := by
  unfold lockCount unlockAllOfType
  rw [findVal_unlockMap rm.cache t id hty]
  cases hc : findVal id rm.cache with
  | none => rfl
  | some r =>
    simp only [Option.map, Option.getD_some]
    by_cases hz : 0 < r.lockers
    · rw [if_pos hz]
    · rw [if_neg hz]
      omega

/-- C8: for every resource id reached through `kLock`, a lock followed by
exactly one unlock returns its lock count to the value before the pair,
on every engine state; and an unlock issued while the count is already
zero (or the resource is not cached) leaves the count at zero — no
underflow ever occurs. -/
theorem kLock_lock_unlock_balance (cfg : GameConfig) (t n : reg_t) :
    (∀ s : EngineState,
      lockCount ((kLock cfg ((kLock cfg s [t, n]).1) [t, n, NULL_REG]).1).resMan
        (kLockId cfg [t, n]) = lockCount s.resMan (kLockId cfg [t, n])) ∧
    (∀ s : EngineState, lockCount s.resMan (kLockId cfg [t, n]) = 0 →
      lockCount ((kLock cfg s [t, n, NULL_REG]).1).resMan (kLockId cfg [t, n]) = 0) := by
  have hty3 : kLockType cfg [t, n, NULL_REG] = kLockType cfg [t, n] := rfl
  have hid3 : kLockId cfg [t, n, NULL_REG] = kLockId cfg [t, n] := rfl
  have htyid : (kLockId cfg [t, n]).ty = kLockType cfg [t, n] := rfl
  by_cases h1 : cfg.hasSci3Audio ∧ kLockType cfg [t, n] = ResourceType.audio
  · have e1 : ∀ s : EngineState, (kLock cfg s [t, n]).1.resMan = s.resMan := by
      intro s
      simp only [kLock]
      rw [if_pos h1]
    have e2 : ∀ s : EngineState, (kLock cfg s [t, n, NULL_REG]).1.resMan = s.resMan := by
      intro s
      simp only [kLock]
      rw [if_pos (show cfg.hasSci3Audio ∧
        kLockType cfg [t, n, NULL_REG] = ResourceType.audio from hty3 ▸ h1)]
    exact ⟨fun s => by rw [e2, e1], fun s h0 => by rw [e2]; exact h0⟩
  · by_cases h2 : cfg.sciVersion = SCI_VERSION_1_1 ∧
        (kLockType cfg [t, n] = ResourceType.audio36 ∨
          kLockType cfg [t, n] = ResourceType.sync36)
    · have e1 : ∀ s : EngineState, (kLock cfg s [t, n]).1.resMan = s.resMan := by
        intro s
        simp only [kLock]
        rw [if_neg h1, if_pos h2]
      have e2 : ∀ s : EngineState, (kLock cfg s [t, n, NULL_REG]).1.resMan = s.resMan := by
        intro s
        simp only [kLock]
        rw [if_neg (hty3 ▸ h1), if_pos (show cfg.sciVersion = SCI_VERSION_1_1 ∧
          (kLockType cfg [t, n, NULL_REG] = ResourceType.audio36 ∨
            kLockType cfg [t, n, NULL_REG] = ResourceType.sync36) from hty3 ▸ h2)]
      exact ⟨fun s => by rw [e2, e1], fun s h0 => by rw [e2]; exact h0⟩
    · have e1 : ∀ s : EngineState,
          (kLock cfg s [t, n]).1.resMan =
            (findResource s.resMan (kLockId cfg [t, n]) true).1 := by
        intro s
        simp only [kLock]
        rw [if_neg h1, if_neg h2]
        simp
      have e2 : ∀ s : EngineState,
          (kLock cfg s [t, n, NULL_REG]).1.resMan =
            (if cfg.sciVersion < SCI_VERSION_2 ∧ (kLockId cfg [t, n]).number = 65535
             then unlockAllOfType s.resMan (kLockType cfg [t, n])
             else unlockStep s.resMan (kLockId cfg [t, n])) := by
        intro s
        simp only [kLock]
        rw [if_neg (hty3 ▸ h1), if_neg (show ¬ (cfg.sciVersion = SCI_VERSION_1_1 ∧
          (kLockType cfg [t, n, NULL_REG] = ResourceType.audio36 ∨
            kLockType cfg [t, n, NULL_REG] = ResourceType.sync36)) from hty3 ▸ h2)]
        have hflag : ¬ ((NULL_REG.toUint16 != 0) = true) := by decide
        simp [hflag]
        rw [hid3, hty3]
        by_cases h3 : cfg.sciVersion < SCI_VERSION_2 ∧ (kLockId cfg [t, n]).number = 65535
        · rw [if_pos h3, if_pos h3]
        · rw [if_neg h3, if_neg h3]
      have hdec : ∀ rm : ResMan,
          lockCount (if cfg.sciVersion < SCI_VERSION_2 ∧
              (kLockId cfg [t, n]).number = 65535
            then unlockAllOfType rm (kLockType cfg [t, n])
            else unlockStep rm (kLockId cfg [t, n])) (kLockId cfg [t, n]) =
          lockCount rm (kLockId cfg [t, n]) - 1 := by
        intro rm
        by_cases h3 : cfg.sciVersion < SCI_VERSION_2 ∧ (kLockId cfg [t, n]).number = 65535
        · rw [if_pos h3]
          exact lockCount_unlockAllOfType rm _ _ htyid
        · rw [if_neg h3]
          exact lockCount_unlockStep rm _
      constructor
      · intro s
        rw [e2, e1, hdec]
        rcases lockCount_findResource_lock s.resMan (kLockId cfg [t, n]) with h | ⟨hrm, h0⟩
        · omega
        · rw [hrm, h0]
      · intro s h0
        rw [e2, hdec, h0]

/-- Witness for C8: locking then unlocking resource (other 7, 3) in the
concrete state restores its lock count 2, and an unlock of the uncached
resource (other 7, 4) at count zero leaves the count at zero. -/
theorem kLock_lock_unlock_balance_witness :
    lockCount ((kLock cfgW ((kLock cfgW stW [⟨0, 7⟩, ⟨0, 3⟩]).1)
        [⟨0, 7⟩, ⟨0, 3⟩, NULL_REG]).1).resMan (kLockId cfgW [⟨0, 7⟩, ⟨0, 3⟩]) =
      lockCount stW.resMan (kLockId cfgW [⟨0, 7⟩, ⟨0, 3⟩]) ∧
    (lockCount stW.resMan (kLockId cfgW [⟨0, 7⟩, ⟨0, 4⟩]) = 0 ∧
      lockCount ((kLock cfgW stW [⟨0, 7⟩, ⟨0, 4⟩, NULL_REG]).1).resMan
        (kLockId cfgW [⟨0, 7⟩, ⟨0, 4⟩]) = 0) :=
  ⟨(kLock_lock_unlock_balance cfgW ⟨0, 7⟩ ⟨0, 3⟩).1 stW,
   by decide,
   (kLock_lock_unlock_balance cfgW ⟨0, 7⟩ ⟨0, 4⟩).2 stW (by decide)⟩

end Sci
